import Mathlib

/-!
# Explore-assistant cloud function: signed HTTP gateway

A shallow embedding of `explore-assistant-cloud-function/function.go` and of the
library routines it calls, followed by the properties of the request handler.

* Go byte slices and the Go strings that carry raw bytes (request body, shared
  secret, header values) are lists of bytes.
* Go strings that carry text (method, header names, messages, generated text)
  are Lean strings, that is, valid Unicode text.
* A Go result `(T, error)` is an `Except GoError T` when the value is dropped on
  error, and a pair `T × Option GoError` where the program hands both on.
* SHA-256, HMAC, hexadecimal encoding, the constant-time comparison, the
  response writer, `http.Error` and the JSON encoder are written out. The JSON
  decoder and the generation backend are taken as given: they are fields of
  `Env`, next to the package-level variables. The decoder of the library, as
  it acts on a `RequestBody`, is written out as well and serves in examples.
* The handler is a function from the request to the final state of the response
  writer together with the list of calls it made to the outside world.
-/

set_option autoImplicit false

/-! ## Go basics -/

/-- One octet. -/
abbrev Byte := Fin 256

/-- A byte slice, also used for Go strings holding raw bytes. -/
abbrev Bytes := List Byte

/-- A Go `error` value, with the text its `Error()` method returns. -/
structure GoError where
  Error : String
deriving DecidableEq

/-- The UTF-8 encoding of one character. -/
def utf8Char (c : Char) : Bytes :=
  let n := c.toNat
  if n < 0x80 then [Fin.ofNat n]
  else if n < 0x800 then [Fin.ofNat (0xC0 ||| n >>> 6), Fin.ofNat (0x80 ||| n &&& 0x3F)]
  else if n < 0x10000 then
    [Fin.ofNat (0xE0 ||| n >>> 12), Fin.ofNat (0x80 ||| n >>> 6 &&& 0x3F),
     Fin.ofNat (0x80 ||| n &&& 0x3F)]
  else
    [Fin.ofNat (0xF0 ||| n >>> 18), Fin.ofNat (0x80 ||| n >>> 12 &&& 0x3F),
     Fin.ofNat (0x80 ||| n >>> 6 &&& 0x3F), Fin.ofNat (0x80 ||| n &&& 0x3F)]

/-- The conversion `[]byte(s)` of a text string: its UTF-8 bytes. -/
def stringBytes (s : String) : Bytes := s.toList.flatMap utf8Char

/-! ## crypto/sha256 -/

namespace sha256

/-- The round constants of SHA-256. -/
def _K : List Nat :=
  [0x428a2f98, 0x71374491, 0xb5c0fbcf, 0xe9b5dba5, 0x3956c25b, 0x59f111f1, 0x923f82a4, 0xab1c5ed5] ++
  [0xd807aa98, 0x12835b01, 0x243185be, 0x550c7dc3, 0x72be5d74, 0x80deb1fe, 0x9bdc06a7, 0xc19bf174] ++
  [0xe49b69c1, 0xefbe4786, 0x0fc19dc6, 0x240ca1cc, 0x2de92c6f, 0x4a7484aa, 0x5cb0a9dc, 0x76f988da] ++
  [0x983e5152, 0xa831c66d, 0xb00327c8, 0xbf597fc7, 0xc6e00bf3, 0xd5a79147, 0x06ca6351, 0x14292967] ++
  [0x27b70a85, 0x2e1b2138, 0x4d2c6dfc, 0x53380d13, 0x650a7354, 0x766a0abb, 0x81c2c92e, 0x92722c85] ++
  [0xa2bfe8a1, 0xa81a664b, 0xc24b8b70, 0xc76c51a3, 0xd192e819, 0xd6990624, 0xf40e3585, 0x106aa070] ++
  [0x19a4c116, 0x1e376c08, 0x2748774c, 0x34b0bcb5, 0x391c0cb3, 0x4ed8aa4a, 0x5b9cca4f, 0x682e6ff3] ++
  [0x748f82ee, 0x78a5636f, 0x84c87814, 0x8cc70208, 0x90befffa, 0xa4506ceb, 0xbef9a3f7, 0xc67178f2]

/-- Truncation to a `uint32`. -/
def u32 (x : Nat) : Nat := x % 2 ^ 32

/-- The rotation `bits.RotateLeft32(x, -k)` of a `uint32`. -/
def rotr (x k : Nat) : Nat := u32 (x >>> k ||| x <<< (32 - k))

/-- The eight chaining words `h[0..7]` of the hash state. -/
structure digest where
  h0 : Nat
  h1 : Nat
  h2 : Nat
  h3 : Nat
  h4 : Nat
  h5 : Nat
  h6 : Nat
  h7 : Nat
deriving DecidableEq

/-- The initial chaining value. -/
def init : digest :=
  ⟨0x6a09e667, 0xbb67ae85, 0x3c6ef372, 0xa54ff53a, 0x510e527f, 0x9b05688c, 0x1f83d9ab, 0x5be0cd19⟩

/-- The first `n` big-endian 32-bit words of `p`. -/
def loadWords : Nat → List Nat → List Nat
  | 0, _ => []
  | n + 1, p =>
    (p.getD 0 0 <<< 24 ||| p.getD 1 0 <<< 16 ||| p.getD 2 0 <<< 8 ||| p.getD 3 0)
      :: loadWords n (p.drop 4)

/-- The message schedule, newest word first: `n` further words `w[i]` from the
sixteen before them. -/
def extend : Nat → List Nat → List Nat
  | 0, wrev => wrev
  | n + 1, wrev =>
    let v1 := wrev.getD 1 0
    let t1 := rotr v1 17 ^^^ rotr v1 19 ^^^ v1 >>> 10
    let v2 := wrev.getD 14 0
    let t2 := rotr v2 7 ^^^ rotr v2 18 ^^^ v2 >>> 3
    extend n (u32 (t1 + wrev.getD 6 0 + t2 + wrev.getD 15 0) :: wrev)

/-- One of the 64 rounds, on the working variables `a..h` held in a `digest`. -/
def round (s : digest) (kw : Nat × Nat) : digest :=
  let t1 := u32 (s.h7 + (rotr s.h4 6 ^^^ rotr s.h4 11 ^^^ rotr s.h4 25)
    + ((s.h4 &&& s.h5) ^^^ ((s.h4 ^^^ 0xffffffff) &&& s.h6)) + kw.1 + kw.2)
  let t2 := u32 ((rotr s.h0 2 ^^^ rotr s.h0 13 ^^^ rotr s.h0 22)
    + ((s.h0 &&& s.h1) ^^^ (s.h0 &&& s.h2) ^^^ (s.h1 &&& s.h2)))
  ⟨u32 (t1 + t2), s.h0, s.h1, s.h2, u32 (s.h3 + t1), s.h4, s.h5, s.h6⟩

/-- The compression of one 64-byte chunk into the chaining value. -/
def block1 (d : digest) (p : List Nat) : digest :=
  let w := (extend 48 (loadWords 16 p).reverse).reverse
  let s := (_K.zip w).foldl round d
  ⟨u32 (d.h0 + s.h0), u32 (d.h1 + s.h1), u32 (d.h2 + s.h2), u32 (d.h3 + s.h3),
   u32 (d.h4 + s.h4), u32 (d.h5 + s.h5), u32 (d.h6 + s.h6), u32 (d.h7 + s.h7)⟩

/-- The loop `for len(p) >= chunk` of `blockGeneric`, run `n` times. -/
def blockLoop : Nat → digest → List Nat → digest
  | 0, d, _ => d
  | n + 1, d, p => blockLoop n (block1 d (p.take 64)) (p.drop 64)

/-- The function `blockGeneric`: every whole chunk of `p` is compressed. -/
def block (d : digest) (p : List Nat) : digest := blockLoop (p.length / 64) d p

/-- The eight bytes of a `uint64`, big-endian. -/
def putUint64 (x : Nat) : List Nat :=
  [x >>> 56 % 256, x >>> 48 % 256, x >>> 40 % 256, x >>> 32 % 256,
   x >>> 24 % 256, x >>> 16 % 256, x >>> 8 % 256, x % 256]

/-- The padding of `checkSum` for a message of `len` bytes: a one bit, zeros up
to 56 bytes mod 64, and the length in bits. -/
def padding (len : Nat) : List Nat :=
  let t := if len % 64 < 56 then 56 - len % 64 else 64 + 56 - len % 64
  0x80 :: List.replicate (t - 1) 0 ++ putUint64 (len <<< 3 % 2 ^ 64)

/-- The four bytes of a `uint32`, big-endian. -/
def putUint32 (x : Nat) : Bytes :=
  [Fin.ofNat (x >>> 24), Fin.ofNat (x >>> 16), Fin.ofNat (x >>> 8), Fin.ofNat x]

/-- The SHA-256 checksum of everything written to a fresh hash. -/
def Sum256 (data : Bytes) : Bytes :=
  let p := data.map Fin.val
  let d := block init (p ++ padding p.length)
  putUint32 d.h0 ++ putUint32 d.h1 ++ putUint32 d.h2 ++ putUint32 d.h3 ++
  putUint32 d.h4 ++ putUint32 d.h5 ++ putUint32 d.h6 ++ putUint32 d.h7

/-- The block size of the hash in bytes. -/
def BlockSize : Nat := 64

end sha256

/-! ## crypto/hmac over SHA-256 -/

namespace hmac

/-- An HMAC in progress: the two padded keys and the bytes written to the inner
hash so far. -/
structure HMAC where
  opad : Bytes
  ipad : Bytes
  inner : Bytes

/-- The constructor `hmac.New(sha256.New, key)`. -/
def New (key : Bytes) : HMAC :=
  let key := if key.length > sha256.BlockSize then sha256.Sum256 key else key
  let padded := key ++ List.replicate (sha256.BlockSize - key.length) 0
  let ipad := padded.map fun b => (Fin.ofNat (b.val ^^^ 0x36) : Byte)
  let opad := padded.map fun b => (Fin.ofNat (b.val ^^^ 0x5c) : Byte)
  { opad := opad, ipad := ipad, inner := ipad }

/-- The method `Write`. -/
def HMAC.Write (h : HMAC) (p : Bytes) : HMAC := { h with inner := h.inner ++ p }

/-- The method `Sum(in)`: the tag appended to `in`. -/
def HMAC.Sum (h : HMAC) (b : Bytes) : Bytes :=
  b ++ sha256.Sum256 (h.opad ++ sha256.Sum256 h.inner)

end hmac

/-! ## encoding/hex -/

namespace hex

/-- The digits used by the encoder. -/
def hextable : Bytes := stringBytes "0123456789abcdef"

/-- The function `hex.EncodeToString`. -/
def EncodeToString (src : Bytes) : Bytes :=
  src.flatMap fun v => [hextable.getD (v.val >>> 4) 0, hextable.getD (v.val &&& 0x0f) 0]

end hex

/-! ## crypto/subtle, with the events an observer of timing can see -/

/-- An event visible under the constant-time leakage model: the outcome of a
branch, or the index of a memory access. -/
inductive Leak where
  | branch (taken : Bool)
  | index (i : Nat)
deriving DecidableEq

namespace subtle

/-- The function `ConstantTimeByteEq(x, y)`: `int((uint32(x^y) - 1) >> 31)`. -/
def ConstantTimeByteEq (x y : Nat) : Nat :=
  (((x ^^^ y) % 2 ^ 32 + 2 ^ 32 - 1) % 2 ^ 32) >>> 31

/-- The loop `for i := 0; i < len(x); i++ { v |= x[i] ^ y[i] }` from index `i`
on, over the remaining bytes of two slices; returns `v` and the events. -/
def compareLoop : Bytes → Bytes → Nat → Nat → Nat × List Leak
  | x :: xs, y :: ys, i, v =>
    let r := compareLoop xs ys (i + 1) ((v ||| (x.val ^^^ y.val)) % 256)
    (r.1, Leak.branch true :: Leak.index i :: Leak.index i :: r.2)
  | _, _, _, v => (v, [Leak.branch false])

/-- The function `ConstantTimeCompare` with its events. -/
def ConstantTimeCompareLeak (x y : Bytes) : Nat × List Leak :=
  if x.length ≠ y.length then (0, [Leak.branch true])
  else
    let r := compareLoop x y 0 0
    (ConstantTimeByteEq r.1 0, Leak.branch false :: r.2)

/-- The function `ConstantTimeCompare`. -/
def ConstantTimeCompare (x y : Bytes) : Nat := (ConstantTimeCompareLeak x y).1

end subtle

/-- The function `hmac.Equal` with its events: `ConstantTimeCompare(mac1, mac2) == 1`. -/
def hmac.EqualLeak (mac1 mac2 : Bytes) : Bool × List Leak :=
  let c := subtle.ConstantTimeCompareLeak mac1 mac2
  (c.1 == 1, c.2)

/-- The function `hmac.Equal`. -/
def hmac.Equal (mac1 mac2 : Bytes) : Bool := (hmac.EqualLeak mac1 mac2).1

/-! ## net/http -/

namespace http

/-- A header map from canonical key to values, with at most one entry per key.
Values are raw strings. -/
structure Header where
  entries : List (String × List Bytes)
deriving DecidableEq

/-- The method `Header.Get`: the first value of the key, or the empty string.
The keys used by the program are already in canonical form. -/
def Header.Get (h : Header) (key : String) : Bytes :=
  match h.entries.lookup key with
  | some (v :: _) => v
  | _ => []

/-- The method `Header.Del`. -/
def Header.Del (h : Header) (key : String) : Header :=
  ⟨h.entries.filter fun e => e.1 != key⟩

/-- The method `Header.Set`: the key now has exactly the one value. -/
def Header.Set (h : Header) (key : String) (value : String) : Header :=
  ⟨(key, [stringBytes value]) :: (h.Del key).entries⟩

def MethodOptions : String := "OPTIONS"
def StatusOK : Nat := 200
def StatusNoContent : Nat := 204
def StatusBadRequest : Nat := 400
def StatusForbidden : Nat := 403
def StatusInternalServerError : Nat := 500

/-- An incoming request: method, headers with raw values, and what reading the
whole body yields. -/
structure Request where
  Method : String
  Header : http.Header
  Body : Except GoError Bytes

/-- The state of a response writer. `header` is the map the handler edits;
`status` is set by the first `WriteHeader`, which also fixes the headers that
go out in `sent`; `body` is what has been written. -/
structure ResponseWriter where
  header : http.Header
  status : Option Nat
  sent : http.Header
  body : String
deriving DecidableEq

/-- A writer on which nothing has happened yet. -/
def ResponseWriter.fresh : ResponseWriter :=
  { header := ⟨[]⟩, status := none, sent := ⟨[]⟩, body := "" }

/-- The method `WriteHeader`: only the first call counts. -/
def ResponseWriter.WriteHeader (w : ResponseWriter) (code : Nat) : ResponseWriter :=
  match w.status with
  | some _ => w
  | none => { w with status := some code, sent := w.header }

/-- The function `bodyAllowedForStatus`. -/
def bodyAllowedForStatus (status : Nat) : Bool :=
  if 100 ≤ status ∧ status ≤ 199 then false
  else if status = 204 then false
  else if status = 304 then false
  else true

/-- The method `Write`: writes the header with status 200 if none was written,
then appends to the body when the status allows one. -/
def ResponseWriter.Write (w : ResponseWriter) (p : String) : ResponseWriter :=
  let w := match w.status with
    | some _ => w
    | none => w.WriteHeader StatusOK
  if bodyAllowedForStatus (w.status.getD StatusOK) then { w with body := w.body ++ p } else w

/-- The function `http.Error`. -/
def Error (w : ResponseWriter) (error : String) (code : Nat) : ResponseWriter :=
  let w := { w with header := w.header.Del "Content-Length" }
  let w := { w with header := w.header.Set "Content-Type" "text/plain; charset=utf-8" }
  let w := { w with header := w.header.Set "X-Content-Type-Options" "nosniff" }
  let w := w.WriteHeader code
  w.Write (error ++ "\n")

end http

/-! ## encoding/json -/

namespace json

/-- A decoded JSON value as stored in an `interface{}`. -/
inductive Value where
  | null
  | bool (b : Bool)
  | number (x : Float)
  | string (s : String)
  | array (xs : List Value)
  | object (fields : List (String × Value))

/-- The digits `hex` of the encoder. -/
def hexDigit (n : Nat) : Char := "0123456789abcdef".toList.getD n (Char.ofNat 48)

/-- The bytes `htmlSafeSet` lets through unescaped: printable ASCII and DEL,
without the double quote, the backslash, and the characters `<`, `>`, `&`. -/
def htmlSafe (n : Nat) : Bool :=
  0x20 ≤ n && n < 0x80 && n != 0x22 && n != 0x5c && n != 0x3c && n != 0x3e && n != 0x26

/-- The encoding of one character inside a JSON string, as `appendString` with
`escapeHTML` set writes it (backspace and form feed in their short form, as
from Go 1.22). -/
def appendChar (c : Char) : String :=
  let n := c.toNat
  if n < 0x80 then
    if htmlSafe n then c.toString
    else if n = 0x5c then "\\\\"
    else if n = 0x22 then "\\\""
    else if n = 0x08 then "\\b"
    else if n = 0x0c then "\\f"
    else if n = 0x0a then "\\n"
    else if n = 0x0d then "\\r"
    else if n = 0x09 then "\\t"
    else "\\u00" ++ (hexDigit (n >>> 4)).toString ++ (hexDigit (n &&& 0xF)).toString
  else if n = 0x2028 ∨ n = 0x2029 then "\\u202" ++ (hexDigit (n &&& 0xF)).toString
  else c.toString

/-- The function `appendString`: a quoted JSON string. -/
def appendString (src : String) : String :=
  "\"" ++ String.join (src.toList.map appendChar) ++ "\""

/-- The encoding of a `map[string]string`, given as its entries in key order. -/
def marshalMap (m : List (String × String)) : String :=
  "\x7b" ++ String.intercalate "," (m.map fun e => appendString e.1 ++ ":" ++ appendString e.2)
    ++ "\x7d"

end json

/-- The call `json.NewEncoder(w).Encode(m)` for a `map[string]string`: the
encoding followed by a newline is written to `w`. -/
def json.Encode (w : http.ResponseWriter) (m : List (String × String)) : http.ResponseWriter :=
  w.Write (json.marshalMap m ++ "\n")

/-! ## google.golang.org/genai -/

namespace genai

inductive Backend where
  | BackendUnspecified
  | BackendGeminiAPI
  | BackendVertexAI
deriving DecidableEq

structure ClientConfig where
  Project : String
  Location : String
  Backend : Backend
deriving DecidableEq

structure VertexRAGStoreRAGResource where
  RAGCorpus : String

structure VertexRAGStore where
  RAGResources : List VertexRAGStoreRAGResource

structure Retrieval where
  VertexRAGStore : Option VertexRAGStore

structure Tool where
  Retrieval : Option Retrieval

structure GenerateContentConfig where
  Temperature : Option Float
  TopP : Option Float
  TopK : Option Float
  MaxOutputTokens : Option Int
  CandidateCount : Option Int
  Tools : List Tool

end genai

/-! ## The program -/

/-- The type `RequestBody`. -/
structure RequestBody where
  Contents : String
  Parameters : Option (List (String × json.Value))

/-- A call that leaves the process or consumes the request stream. -/
inductive Call where
  | ReadAll
  | NewClient (cc : genai.ClientConfig)
  | GenerateContent (model : String) (contents : String) (config : genai.GenerateContentConfig)

/-- Whether a call goes to the generation backend. -/
def Call.isBackend : Call → Bool
  | Call.ReadAll => false
  | Call.NewClient _ => true
  | Call.GenerateContent _ _ _ => true

/-- What the program takes from its surroundings: the package-level variables
read from the process environment, the decoder `json.Unmarshal` into a
`RequestBody`, and the generation backend behind the `genai` client. -/
structure Env where
  project : String
  location : String
  vertexCFAuthToken : Bytes
  modelName : String
  ragCorpus : String
  Unmarshal : Bytes → Except GoError RequestBody
  Client : Type
  GenerateContentResponse : Type
  NewClient : genai.ClientConfig → Except GoError Client
  GenerateContent :
    Client → String → String → genai.GenerateContentConfig → Except GoError GenerateContentResponse
  Text : GenerateContentResponse → String × Option GoError

/-- The function `getResponseHeaders`. -/
def getResponseHeaders (w : http.ResponseWriter) : http.ResponseWriter :=
  let w := { w with header := w.header.Set "Access-Control-Allow-Origin" "*" }
  let w := { w with header := w.header.Set "Access-Control-Allow-Methods" "POST, OPTIONS" }
  { w with header := w.header.Set "Access-Control-Allow-Headers" "Content-Type, X-Signature" }

/-- The function `hasValidSignature`, with the events of the comparison. -/
def hasValidSignatureLeak (env : Env) (r : http.Request) (body : Bytes) : Bool × List Leak :=
  let signature := r.Header.Get "X-Signature"
  if signature = [] then (false, [Leak.branch true])
  else
    let h := hmac.New env.vertexCFAuthToken
    let h := h.Write body
    let expectedSignature := hex.EncodeToString (h.Sum [])
    let eq := hmac.EqualLeak signature expectedSignature
    (eq.1, Leak.branch false :: eq.2)

/-- The function `hasValidSignature`. -/
def hasValidSignature (env : Env) (r : http.Request) (body : Bytes) : Bool :=
  (hasValidSignatureLeak env r body).1

/-- The `genai.ClientConfig` literal of `generateLookerQuery`. -/
def clientConfig (env : Env) : genai.ClientConfig :=
  { Project := env.project, Location := env.location, Backend := genai.Backend.BackendVertexAI }

/-- The `genai.GenerateContentConfig` literal of `generateLookerQuery`. -/
def generateContentConfig (env : Env) : genai.GenerateContentConfig :=
  let store : genai.VertexRAGStore := { RAGResources := [{ RAGCorpus := env.ragCorpus }] }
  { Temperature := some 0.2
    TopP := some 0.8
    TopK := some 40
    MaxOutputTokens := some 500
    CandidateCount := some 1
    Tools := [{ Retrieval := some { VertexRAGStore := some store } }] }

/-- The function `generateLookerQuery`: its two results and the calls made. -/
def generateLookerQuery (env : Env) (contents : String)
    (parameters : Option (List (String × json.Value))) : (String × Option GoError) × List Call :=
  let _ := parameters
  match env.NewClient (clientConfig env) with
  | Except.error err => (("", some err), [Call.NewClient (clientConfig env)])
  | Except.ok client =>
    let config := generateContentConfig env
    let calls :=
      [Call.NewClient (clientConfig env), Call.GenerateContent env.modelName contents config]
    match env.GenerateContent client env.modelName contents config with
    | Except.error err => (("", some err), calls)
    | Except.ok response => (env.Text response, calls)

/-- The function `HandleRequest`: the writer after the handler returns and the
calls made on the way. -/
def HandleRequest (env : Env) (w : http.ResponseWriter) (r : http.Request) :
    http.ResponseWriter × List Call :=
  let w := getResponseHeaders w
  if r.Method = http.MethodOptions then (w.WriteHeader http.StatusNoContent, [])
  else
    match r.Body with
    | Except.error _ =>
      (http.Error w "Failed to read request body" http.StatusInternalServerError, [Call.ReadAll])
    | Except.ok body =>
      if ¬ hasValidSignature env r body then
        (http.Error w "Invalid signature" http.StatusForbidden, [Call.ReadAll])
      else
        match env.Unmarshal body with
        | Except.error _ => (http.Error w "Invalid JSON" http.StatusBadRequest, [Call.ReadAll])
        | Except.ok req =>
          if req.Contents = "" then
            (http.Error w "Missing 'contents' parameter" http.StatusBadRequest, [Call.ReadAll])
          else
            let res := generateLookerQuery env req.Contents req.Parameters
            match res.1.2 with
            | some err =>
              (http.Error w err.Error http.StatusInternalServerError, Call.ReadAll :: res.2)
            | none =>
              let w := w.WriteHeader http.StatusOK
              (json.Encode w [("response", res.1.1)], Call.ReadAll :: res.2)

/-- The response to a request served on a fresh writer. -/
def serve (env : Env) (r : http.Request) : http.ResponseWriter × List Call :=
  HandleRequest env http.ResponseWriter.fresh r

/-! ## encoding/json: the decoder, for a `RequestBody` -/

namespace json

/-- A JSON text as the decoder reads it; a number keeps its literal. -/
inductive Node where
  | null
  | bool (b : Bool)
  | number (literal : Bytes)
  | string (s : String)
  | array (items : List Node)
  | object (members : List (String × Node))

/-- A lexical unit of a JSON text: punctuation, the bytes between the quotes of
a string, or a run of other bytes (a number or one of `true`, `false`, `null`). -/
inductive Token where
  | beginArray
  | endArray
  | beginObject
  | endObject
  | comma
  | colon
  | string (raw : Bytes)
  | word (raw : Bytes)

/-- The function `isSpace` of the scanner. -/
def isSpace (c : Byte) : Bool :=
  c.val = 0x20 || c.val = 0x09 || c.val = 0x0d || c.val = 0x0a

/-- The punctuation token a byte stands for, if any. -/
def punctuation (c : Byte) : Option Token :=
  if c.val = 0x5b then some Token.beginArray
  else if c.val = 0x5d then some Token.endArray
  else if c.val = 0x7b then some Token.beginObject
  else if c.val = 0x7d then some Token.endObject
  else if c.val = 0x2c then some Token.comma
  else if c.val = 0x3a then some Token.colon
  else none

/-- Whether a byte is a hexadecimal digit. -/
def isHex (c : Byte) : Bool :=
  (0x30 ≤ c.val && c.val ≤ 0x39) || (0x61 ≤ c.val && c.val ≤ 0x66)
    || (0x41 ≤ c.val && c.val ≤ 0x46)

/-- Whether a byte may follow a backslash, other than `u`. -/
def isEscape (c : Byte) : Bool :=
  c.val = 0x62 || c.val = 0x66 || c.val = 0x6e || c.val = 0x72 || c.val = 0x74
    || c.val = 0x5c || c.val = 0x2f || c.val = 0x22

/-- Where the scanner stands between two bytes. -/
inductive LexState where
  | idle
  | word (acc : Bytes)
  | str (acc : Bytes)
  | esc (acc : Bytes)
  | hex (acc : Bytes) (left : Nat)

/-- The tokens of a JSON text, or nothing when a string is malformed or left
open: control bytes are refused inside a string, a backslash must start one of
the escapes, every other byte is let through. -/
def lex : LexState → List Token → Bytes → Option (List Token)
  | LexState.idle, out, [] => some out.reverse
  | LexState.word acc, out, [] => some (Token.word acc :: out).reverse
  | _, _, [] => none
  | LexState.idle, out, c :: cs =>
    if isSpace c then lex LexState.idle out cs
    else if c.val = 0x22 then lex (LexState.str []) out cs
    else
      match punctuation c with
      | some t => lex LexState.idle (t :: out) cs
      | none => lex (LexState.word [c]) out cs
  | LexState.word acc, out, c :: cs =>
    if isSpace c then lex LexState.idle (Token.word acc :: out) cs
    else if c.val = 0x22 then lex (LexState.str []) (Token.word acc :: out) cs
    else
      match punctuation c with
      | some t => lex LexState.idle (t :: Token.word acc :: out) cs
      | none => lex (LexState.word (acc ++ [c])) out cs
  | LexState.str acc, out, c :: cs =>
    if c.val = 0x22 then lex LexState.idle (Token.string acc :: out) cs
    else if c.val = 0x5c then lex (LexState.esc (acc ++ [c])) out cs
    else if c.val < 0x20 then none
    else lex (LexState.str (acc ++ [c])) out cs
  | LexState.esc acc, out, c :: cs =>
    if isEscape c then lex (LexState.str (acc ++ [c])) out cs
    else if c.val = 0x75 then lex (LexState.hex (acc ++ [c]) 4) out cs
    else none
  | LexState.hex acc left, out, c :: cs =>
    if isHex c then
      if left ≤ 1 then lex (LexState.str (acc ++ [c])) out cs
      else lex (LexState.hex (acc ++ [c]) (left - 1)) out cs
    else none

/-- Whether a byte is a decimal digit. -/
def isDigit (c : Byte) : Bool := 0x30 ≤ c.val && c.val ≤ 0x39

/-- The value of a run of decimal digits. -/
def natOfDigits (ds : Bytes) : Nat := ds.foldl (fun n d => 10 * n + (d.val - 0x30)) 0

/-- A number literal taken apart: its sign, all its digits as one natural number
and the power of ten that scales them. -/
structure Number where
  neg : Bool
  mantissa : Nat
  exp10 : Int

/-- The exponent part of a number literal, after the `e`: an optional sign and
at least one digit, up to the end. -/
def parseExponent (s : Bytes) : Option Int :=
  let signed : Bool × Bytes :=
    match s with
    | c :: rest => if c.val = 0x2d then (true, rest) else if c.val = 0x2b then (false, rest)
      else (false, s)
    | [] => (false, [])
  let ds := signed.2.span isDigit
  if ds.1 = [] ∨ ds.2 ≠ [] then none
  else if signed.1 then some (-(natOfDigits ds.1 : Int)) else some (natOfDigits ds.1 : Int)

/-- The grammar of a JSON number: an optional minus, `0` or digits without a
leading zero, an optional fraction with at least one digit, an optional
exponent. -/
def parseNumber (s : Bytes) : Option Number :=
  let signed : Bool × Bytes :=
    match s with
    | c :: rest => if c.val = 0x2d then (true, rest) else (false, s)
    | [] => (false, [])
  let int := signed.2.span isDigit
  if int.1 = [] then none
  else if 1 < int.1.length ∧ int.1.head? = some 0x30 then none
  else
    let frac : Option (Bytes × Bytes) :=
      match int.2 with
      | c :: rest =>
        if c.val = 0x2e then
          let fs := rest.span isDigit
          if fs.1 = [] then none else some fs
        else some ([], int.2)
      | [] => some ([], [])
    match frac with
    | none => none
    | some (fs, rest) =>
      let mantissa := natOfDigits (int.1 ++ fs)
      match rest with
      | [] => some ⟨signed.1, mantissa, -(fs.length : Int)⟩
      | c :: rest =>
        if c.val = 0x65 ∨ c.val = 0x45 then
          match parseExponent rest with
          | some e => some ⟨signed.1, mantissa, e - (fs.length : Int)⟩
          | none => none
        else none

/-- Whether `strconv.ParseFloat` converts the number without a range error: its
magnitude is below the midpoint between the largest `float64` and `2 ^ 1024`. -/
def Number.fits (x : Number) : Bool :=
  if 0 ≤ x.exp10 then x.mantissa * 10 ^ x.exp10.toNat < 2 ^ 1024 - 2 ^ 970
  else x.mantissa < (2 ^ 1024 - 2 ^ 970) * 10 ^ (-x.exp10).toNat

/-- The `float64` of a number. -/
def Number.toFloat (x : Number) : Float :=
  let f := Float.ofScientific x.mantissa (decide (x.exp10 < 0)) x.exp10.natAbs
  if x.neg then -f else f

/-- The value of a hexadecimal digit. -/
def hexNibble (c : Byte) : Nat :=
  if 0x30 ≤ c.val ∧ c.val ≤ 0x39 then c.val - 0x30
  else if 0x61 ≤ c.val ∧ c.val ≤ 0x66 then c.val - 0x61 + 10
  else if 0x41 ≤ c.val ∧ c.val ≤ 0x46 then c.val - 0x41 + 10
  else 0

/-- The function `getu4` on the four digits after `\u`. -/
def getu4 (a b c d : Byte) : Nat :=
  ((hexNibble a * 16 + hexNibble b) * 16 + hexNibble c) * 16 + hexNibble d

/-- The rune `unicode.ReplacementChar`. -/
def replacementChar : Char := Char.ofNat 0xFFFD

/-- The character of a one-letter escape. -/
def escapeChar (e : Byte) : Char :=
  if e.val = 0x62 then Char.ofNat 0x08
  else if e.val = 0x66 then Char.ofNat 0x0c
  else if e.val = 0x6e then Char.ofNat 0x0a
  else if e.val = 0x72 then Char.ofNat 0x0d
  else if e.val = 0x74 then Char.ofNat 0x09
  else Char.ofNat e.val

/-- Whether a byte continues a UTF-8 sequence. -/
def isCont (b : Byte) : Bool := 0x80 ≤ b.val && b.val ≤ 0xBF

/-- One step of `unquoteBytes` at a byte `c` followed by `rest`: the character
read and the number of bytes it took. Escapes are resolved, a surrogate pair
of `\u` escapes is one character, a lone surrogate and a byte that does not
start well-formed UTF-8 give the replacement character. -/
def unquoteStep (c : Byte) (rest : Bytes) : Char × Nat :=
  if c.val = 0x5c then
    match rest with
    | [] => (replacementChar, 1)
    | e :: rest1 =>
      if e.val = 0x75 then
        match rest1 with
        | h1 :: h2 :: h3 :: h4 :: rest2 =>
          let rr := getu4 h1 h2 h3 h4
          if 0xD800 ≤ rr ∧ rr < 0xE000 then
            match rest2 with
            | b :: u :: g1 :: g2 :: g3 :: g4 :: _ =>
              let rr1 := getu4 g1 g2 g3 g4
              if b.val = 0x5c ∧ u.val = 0x75 ∧ rr < 0xDC00 ∧ 0xDC00 ≤ rr1 ∧ rr1 < 0xE000 then
                (Char.ofNat (((rr - 0xD800) <<< 10 ||| (rr1 - 0xDC00)) + 0x10000), 12)
              else (replacementChar, 6)
            | _ => (replacementChar, 6)
          else (Char.ofNat rr, 6)
        | _ => (replacementChar, 1)
      else (escapeChar e, 2)
  else if c.val < 0x80 then (Char.ofNat c.val, 1)
  else
    match rest with
    | [] => (replacementChar, 1)
    | b1 :: rest1 =>
      if 0xC2 ≤ c.val ∧ c.val ≤ 0xDF ∧ isCont b1 then
        (Char.ofNat ((c.val &&& 0x1F) <<< 6 ||| (b1.val &&& 0x3F)), 2)
      else
        match rest1 with
        | [] => (replacementChar, 1)
        | b2 :: rest2 =>
          if 0xE0 ≤ c.val ∧ c.val ≤ 0xEF ∧ isCont b1 ∧ isCont b2
              ∧ (c.val = 0xE0 → 0xA0 ≤ b1.val) ∧ (c.val = 0xED → b1.val ≤ 0x9F) then
            (Char.ofNat ((c.val &&& 0x0F) <<< 12 ||| (b1.val &&& 0x3F) <<< 6
              ||| (b2.val &&& 0x3F)), 3)
          else
            match rest2 with
            | [] => (replacementChar, 1)
            | b3 :: _ =>
              if 0xF0 ≤ c.val ∧ c.val ≤ 0xF4 ∧ isCont b1 ∧ isCont b2 ∧ isCont b3
                  ∧ (c.val = 0xF0 → 0x90 ≤ b1.val) ∧ (c.val = 0xF4 → b1.val ≤ 0x8F) then
                (Char.ofNat ((c.val &&& 0x07) <<< 18 ||| (b1.val &&& 0x3F) <<< 12
                  ||| (b2.val &&& 0x3F) <<< 6 ||| (b3.val &&& 0x3F)), 4)
              else (replacementChar, 1)

/-- The loop of `unquoteBytes`: `skip` bytes still belong to the character read
last. -/
def unquoteLoop : Nat → Bytes → List Char
  | _, [] => []
  | skip + 1, _ :: rest => unquoteLoop skip rest
  | 0, c :: rest => (unquoteStep c rest).1 :: unquoteLoop ((unquoteStep c rest).2 - 1) rest

/-- The function `unquoteBytes` on the bytes between the quotes of a string the
scanner has accepted. -/
def unquoteBytes (s : Bytes) : String := String.mk (unquoteLoop 0 s)

/-- The value a run of bytes outside strings stands for: one of the three
literals or a number. -/
def scalar (raw : Bytes) : Option Node :=
  if raw = stringBytes "true" then some (Node.bool true)
  else if raw = stringBytes "false" then some (Node.bool false)
  else if raw = stringBytes "null" then some Node.null
  else if (parseNumber raw).isSome then some (Node.number raw)
  else none

/-- An array or object that is still open, with what it holds so far, newest
first; an object also holds the key whose value is awaited. -/
inductive Frame where
  | array (items : List Node)
  | object (members : List (String × Node)) (key : Option String)

/-- What may come next. -/
inductive Expect where
  | value
  | valueOrEnd
  | keyOrEnd
  | key
  | colon
  | commaOrEnd
  | done

/-- The state of the parser between two tokens. -/
structure ParseState where
  stack : List Frame
  expect : Expect
  result : Option Node

/-- The limit `maxNestingDepth` of the scanner. -/
def maxNestingDepth : Nat := 10000

/-- A value is complete: it is the whole text, or goes into the innermost open
array or object. -/
def complete (stack : List Frame) (v : Node) : Option ParseState :=
  match stack with
  | [] => some ⟨[], Expect.done, some v⟩
  | Frame.array items :: rest => some ⟨Frame.array (v :: items) :: rest, Expect.commaOrEnd, none⟩
  | Frame.object members (some k) :: rest =>
    some ⟨Frame.object ((k, v) :: members) none :: rest, Expect.commaOrEnd, none⟩
  | Frame.object _ none :: _ => none

/-- The innermost open array or object is closed by `t`. -/
def close (stack : List Frame) (t : Token) : Option ParseState :=
  match stack, t with
  | Frame.array items :: rest, Token.endArray => complete rest (Node.array items.reverse)
  | Frame.object members none :: rest, Token.endObject =>
    complete rest (Node.object members.reverse)
  | _, _ => none

/-- A value begins with `t`. -/
def startValue (stack : List Frame) (t : Token) : Option ParseState :=
  match t with
  | Token.string raw => complete stack (Node.string (unquoteBytes raw))
  | Token.word raw =>
    match scalar raw with
    | some v => complete stack v
    | none => none
  | Token.beginArray =>
    if stack.length < maxNestingDepth then some ⟨Frame.array [] :: stack, Expect.valueOrEnd, none⟩
    else none
  | Token.beginObject =>
    if stack.length < maxNestingDepth then
      some ⟨Frame.object [] none :: stack, Expect.keyOrEnd, none⟩
    else none
  | _ => none

/-- A key of the innermost open object is read. -/
def startMember (stack : List Frame) (raw : Bytes) : Option ParseState :=
  match stack with
  | Frame.object members none :: rest =>
    some ⟨Frame.object members (some (unquoteBytes raw)) :: rest, Expect.colon, none⟩
  | _ => none

/-- The parser takes one token. -/
def step (s : ParseState) (t : Token) : Option ParseState :=
  match s.expect with
  | Expect.value => startValue s.stack t
  | Expect.valueOrEnd =>
    match t with
    | Token.endArray => close s.stack t
    | _ => startValue s.stack t
  | Expect.keyOrEnd =>
    match t with
    | Token.endObject => close s.stack t
    | Token.string raw => startMember s.stack raw
    | _ => none
  | Expect.key =>
    match t with
    | Token.string raw => startMember s.stack raw
    | _ => none
  | Expect.colon =>
    match t with
    | Token.colon => some ⟨s.stack, Expect.value, none⟩
    | _ => none
  | Expect.commaOrEnd =>
    match t with
    | Token.comma =>
      match s.stack with
      | Frame.array _ :: _ => some ⟨s.stack, Expect.value, none⟩
      | Frame.object _ _ :: _ => some ⟨s.stack, Expect.key, none⟩
      | [] => none
    | Token.endArray => close s.stack t
    | Token.endObject => close s.stack t
    | _ => none
  | Expect.done => none

/-- The parser takes the tokens one after the other. -/
def run : ParseState → List Token → Option ParseState
  | s, [] => some s
  | s, t :: ts =>
    match step s t with
    | some s1 => run s1 ts
    | none => none

/-- The JSON text in `data`, if it is one: a single value with nothing but white
space around it. -/
def parse (data : Bytes) : Option Node :=
  match lex LexState.idle [] data with
  | none => none
  | some tokens =>
    match run ⟨[], Expect.value, none⟩ tokens with
    | some s => s.result
    | none => none

/-- The function `json.Valid`: whether the syntax check of the decoder passes. -/
def Valid (data : Bytes) : Bool := (parse data).isSome

mutual

/-- Whether every number in a value converts to a `float64` without a range
error. -/
def Node.fits : Node → Bool
  | Node.number literal =>
    match parseNumber literal with
    | some x => x.fits
    | none => false
  | Node.array items => fitsItems items
  | Node.object members => fitsMembers members
  | _ => true

/-- The check `Node.fits` on the items of an array. -/
def fitsItems : List Node → Bool
  | [] => true
  | v :: vs => v.fits && fitsItems vs

/-- The check `Node.fits` on the members of an object. -/
def fitsMembers : List (String × Node) → Bool
  | [] => true
  | (_, v) :: ms => v.fits && fitsMembers ms

end

mutual

/-- The method `valueInterface`: the value as stored in an `interface{}`. -/
def Node.toValue : Node → Value
  | Node.null => Value.null
  | Node.bool b => Value.bool b
  | Node.number literal =>
    match parseNumber literal with
    | some x => Value.number x.toFloat
    | none => Value.number 0
  | Node.string s => Value.string s
  | Node.array items => Value.array (itemsToValue items)
  | Node.object members => Value.object (membersToValue members)

/-- The conversion `Node.toValue` on the items of an array. -/
def itemsToValue : List Node → List Value
  | [] => []
  | v :: vs => v.toValue :: itemsToValue vs

/-- The conversion `Node.toValue` on the members of an object. -/
def membersToValue : List (String × Node) → List (String × Value)
  | [] => []
  | (k, v) :: ms => (k, v.toValue) :: membersToValue ms

end

/-- The rune a character is folded to when field names are compared, as far as
names in ASCII letters are concerned: a lowercase ASCII letter goes to its
capital, and so do the two characters outside ASCII that fold to one (the long
s and the Kelvin sign). -/
def foldChar (c : Char) : Char :=
  if 0x61 ≤ c.toNat ∧ c.toNat ≤ 0x7a then Char.ofNat (c.toNat - 0x20)
  else if c.toNat = 0x17F then Char.ofNat 0x53
  else if c.toNat = 0x212A then Char.ofNat 0x4b
  else c

/-- Whether a key of the input names the field with JSON name `name`. -/
def equalFold (key name : String) : Bool :=
  key.toList.map foldChar = name.toList.map foldChar

end json

/-- The decoder at work on a `RequestBody`: the value so far and the first
error met, after which decoding goes on. -/
structure json.decodeState where
  req : RequestBody
  savedError : Option GoError

/-- The method `saveError`: only the first error is kept. -/
def json.decodeState.saveError (d : json.decodeState) (err : GoError) : json.decodeState :=
  match d.savedError with
  | some _ => d
  | none => { d with savedError := some err }

/-- A value is stored in the field `Contents string`: a string is taken, `null`
leaves the field as it is, anything else is a type error. -/
def json.storeContents (d : json.decodeState) (v : json.Node) : json.decodeState :=
  match v with
  | json.Node.string s => { d with req := { d.req with Contents := s } }
  | json.Node.null => d
  | _ => d.saveError ⟨"json: cannot unmarshal value into Go struct field RequestBody.contents"⟩

/-- A value is stored in the field `Parameters map[string]interface{}`: the
members of an object are added to the map, `null` makes the map nil, anything
else is a type error; a number beyond the range of `float64` is an error too.
The map is kept as its entries in the order they were set. -/
def json.storeParameters (d : json.decodeState) (v : json.Node) : json.decodeState :=
  match v with
  | json.Node.object members =>
    let d := if json.fitsMembers members then d
      else d.saveError ⟨"json: cannot unmarshal number into Go struct field RequestBody.parameters"⟩
    { d with req := { d.req with
        Parameters := some (d.req.Parameters.getD [] ++ json.membersToValue members) } }
  | json.Node.null => { d with req := { d.req with Parameters := none } }
  | _ => d.saveError ⟨"json: cannot unmarshal value into Go struct field RequestBody.parameters"⟩

/-- One member of the top-level object: its key selects a field without regard
to case, and a key that names no field is skipped. -/
def json.storeMember (d : json.decodeState) (m : String × json.Node) : json.decodeState :=
  if json.equalFold m.1 "contents" then json.storeContents d m.2
  else if json.equalFold m.1 "parameters" then json.storeParameters d m.2
  else d

/-- The call `json.Unmarshal(data, &req)` for a zero `req` of type
`RequestBody`: the syntax of the whole input is checked first; `null` leaves
`req` as it is, an object is stored member by member, any other value is a
type error. The texts of the errors are not those of the library. -/
def json.Unmarshal (data : Bytes) : Except GoError RequestBody :=
  match json.parse data with
  | none => Except.error ⟨"json: invalid character"⟩
  | some json.Node.null => Except.ok ⟨"", none⟩
  | some (json.Node.object members) =>
    let d := members.foldl json.storeMember ⟨⟨"", none⟩, none⟩
    match d.savedError with
    | some err => Except.error err
    | none => Except.ok d.req
  | some _ => Except.error ⟨"json: cannot unmarshal value into Go value of type RequestBody"⟩

/-! ## Values the properties refer to -/

/-- The signature a holder of the secret sends with `body`. -/
def expectedSignature (env : Env) (body : Bytes) : Bytes :=
  hex.EncodeToString (((hmac.New env.vertexCFAuthToken).Write body).Sum [])

/-- The headers `getResponseHeaders` leaves in a fresh writer. -/
def corsHeader : http.Header :=
  ⟨[("Access-Control-Allow-Headers", [stringBytes "Content-Type, X-Signature"]),
    ("Access-Control-Allow-Methods", [stringBytes "POST, OPTIONS"]),
    ("Access-Control-Allow-Origin", [stringBytes "*"])]⟩

/-- The headers of a response sent through `http.Error` after `getResponseHeaders`. -/
def errorHeader : http.Header :=
  ⟨("X-Content-Type-Options", [stringBytes "nosniff"])
    :: ("Content-Type", [stringBytes "text/plain; charset=utf-8"]) :: corsHeader.entries⟩

/-! ## Test doubles -/

/-- A stand-in for the surroundings: the secret is `secret`, the decoder knows
the bodies listed in `table` and rejects all others, opening a session fails
with `session` if given, and the backend answers a query through `answer`. -/
def stubEnv (table : List (Bytes × RequestBody)) (session : Option GoError)
    (answer : String → Except GoError (String × Option GoError)) : Env :=
  { project := "project"
    location := "us-central1"
    vertexCFAuthToken := stringBytes "secret"
    modelName := "model"
    ragCorpus := "corpus"
    Unmarshal := fun body =>
      match table.lookup body with
      | some req => Except.ok req
      | none => Except.error ⟨"invalid character"⟩
    Client := genai.ClientConfig
    GenerateContentResponse := String × Option GoError
    NewClient := fun cc =>
      match session with
      | some err => Except.error err
      | none => Except.ok cc
    GenerateContent := fun _ _ contents _ => answer contents
    Text := fun response => response }

/-- A POST request with the given body and `X-Signature` value. -/
def post (body signature : Bytes) : http.Request :=
  { Method := "POST", Header := ⟨[("X-Signature", [signature])]⟩, Body := Except.ok body }

/-- A POST request for `body` signed by a holder of the secret of `env`. -/
def signed (env : Env) (body : Bytes) : http.Request := post body (expectedSignature env body)

/-- The body of the query "What is revenue?". -/
def revenueBody : Bytes := stringBytes "\x7b\"contents\":\"What is revenue?\"\x7d"

/-- A body whose `contents` is empty. -/
def emptyContentsBody : Bytes := stringBytes "\x7b\"contents\":\"\"\x7d"

/-- A body that is not JSON: the object is cut short. -/
def brokenBody : Bytes := stringBytes "\x7b\"contents\":"

/-- What the decoder of the test doubles yields for the two well-formed bodies. -/
def exampleTable : List (Bytes × RequestBody) :=
  [(revenueBody, ⟨"What is revenue?", none⟩), (emptyContentsBody, ⟨"", none⟩)]

/-- A backend that answers every query with "Revenue was $5M". -/
def revenueEnv : Env := stubEnv exampleTable none fun _ => Except.ok ("Revenue was $5M", none)

/-- A backend that answers every query with the empty text and no error. -/
def silentEnv : Env := stubEnv exampleTable none fun _ => Except.ok ("", none)

/-- A backend whose generation call fails. -/
def failingEnv : Env := stubEnv exampleTable none fun _ => Except.error ⟨"quota exceeded"⟩

/-! ## The empty-contents premise on real bodies -/

/-- The revenue backend behind the decoder written out above. -/
def decodingEnv : Env := { revenueEnv with Unmarshal := json.Unmarshal }

/-- A body with an empty `contents` and a `parameters` that is not an object. -/
def typedBody : Bytes := stringBytes "\x7b\"contents\":\"\",\"parameters\":5\x7d"

/-- A body that is an empty array. -/
def arrayBody : Bytes := stringBytes "[]"

/-- A body whose only key is `CONTENTS`, in capitals. -/
def capitalsBody : Bytes := stringBytes "\x7b\"CONTENTS\":\"What is revenue?\"\x7d"

/-- The premise on the body as the specification words it: the body is valid
JSON, and its `contents` member is the empty string or there is no member
spelled `contents`. -/
def contentsEmptyOrMissing (data : Bytes) : Bool :=
  match json.parse data with
  | none => false
  | some (json.Node.object members) =>
    match members.lookup "contents" with
    | none => true
    | some (json.Node.string s) => s = ""
    | some _ => false
  | some _ => true

/-! ## Test vectors -/

set_option maxRecDepth 100000 in
theorem sha256_abc :
    hex.EncodeToString (sha256.Sum256 (stringBytes "abc"))
      = stringBytes "ba7816bf8f01cfea414140de5dae2223b00361a396177a9cb410ff61f20015ad" := by
  decide

set_option maxRecDepth 100000 in
theorem hmac_rfc4231_case2 :
    hex.EncodeToString
        (((hmac.New (stringBytes "Jefe")).Write (stringBytes "what do ya want for nothing?")).Sum [])
      = stringBytes "5bdcc146bf60754e6a042426089575c75a003f089d2739839dec58b964ec3843" := by
  decide

set_option maxRecDepth 100000 in
theorem sha256_two_blocks :
    hex.EncodeToString
        (sha256.Sum256 (stringBytes "abcdbcdecdefdefgefghfghighijhijkijkljklmklmnlmnomnopnopq"))
      = stringBytes "248d6a61d20638b8e5c026930c3e6039a33ce45964ff2167f6ecedd419db06c1" := by
  decide

set_option maxRecDepth 100000 in
theorem hmac_rfc4231_case6 :
    hex.EncodeToString
        (((hmac.New (List.replicate 131 0xaa)).Write
          (stringBytes "Test Using Larger Than Block-Size Key - Hash Key First")).Sum [])
      = stringBytes "60e431591ee0b67f0d8a26aacbf5b77f8e0bc6213728c5140546040f0ee37f54" := by
  decide

/-! ## Facts about the library routines -/

theorem nat_or_eq_zero (a b : Nat) : a ||| b = 0 ↔ a = 0 ∧ b = 0 := by
  constructor
  · intro h
    have hb : ∀ i, (a ||| b).testBit i = false := by
      intro i
      rw [h]
      exact Nat.zero_testBit i
    constructor
    · apply Nat.eq_of_testBit_eq
      intro i
      have := hb i
      rw [Nat.testBit_or] at this
      rw [Nat.zero_testBit]
      cases hx : a.testBit i
      · rfl
      · rw [hx] at this
        simp at this
    · apply Nat.eq_of_testBit_eq
      intro i
      have := hb i
      rw [Nat.testBit_or] at this
      rw [Nat.zero_testBit]
      cases hx : b.testBit i
      · rfl
      · rw [hx] at this
        simp at this
  · rintro ⟨rfl, rfl⟩
    rfl

theorem sha256.Sum256_length (data : Bytes) : (sha256.Sum256 data).length = 32 := by
  simp [sha256.Sum256, sha256.putUint32]

theorem hex.EncodeToString_length (src : Bytes) :
    (hex.EncodeToString src).length = 2 * src.length := by
  induction src with
  | nil => rfl
  | cons v vs ih =>
    have h : hex.EncodeToString (v :: vs)
        = hex.hextable.getD (v.val >>> 4) 0 :: hex.hextable.getD (v.val &&& 0x0f) 0
            :: hex.EncodeToString vs := by
      simp [hex.EncodeToString]
    rw [h]
    simp only [List.length_cons, ih]
    omega

theorem hex.getD_mem (i : Nat) (h : i < 16) : hex.hextable.getD i 0 ∈ hex.hextable := by
  interval_cases i <;> decide

theorem hex.digit_mem (v : Byte) :
    hex.hextable.getD (v.val >>> 4) 0 ∈ hex.hextable
      ∧ hex.hextable.getD (v.val &&& 0x0f) 0 ∈ hex.hextable := by
  constructor
  · apply hex.getD_mem
    have := v.isLt
    rw [Nat.shiftRight_eq_div_pow]
    omega
  · apply hex.getD_mem
    exact Nat.and_lt_two_pow v.val (show 15 < 2 ^ 4 by decide)

theorem hex.EncodeToString_mem (src : Bytes) :
    ∀ c ∈ hex.EncodeToString src, c ∈ hex.hextable := by
  induction src with
  | nil => intro c hc; simp [hex.EncodeToString] at hc
  | cons v vs ih =>
    intro c hc
    have h : hex.EncodeToString (v :: vs)
        = hex.hextable.getD (v.val >>> 4) 0 :: hex.hextable.getD (v.val &&& 0x0f) 0
            :: hex.EncodeToString vs := by
      simp [hex.EncodeToString]
    rw [h] at hc
    rcases List.mem_cons.mp hc with rfl | hc
    · exact (hex.digit_mem v).1
    · rcases List.mem_cons.mp hc with rfl | hc
      · exact (hex.digit_mem v).2
      · exact ih c hc

theorem expectedSignature_length (env : Env) (body : Bytes) :
    (expectedSignature env body).length = 64 := by
  unfold expectedSignature
  rw [hex.EncodeToString_length]
  unfold hmac.HMAC.Sum
  rw [List.nil_append, sha256.Sum256_length]

theorem subtle.ConstantTimeByteEq_zero (v : Nat) (hv : v < 256) :
    subtle.ConstantTimeByteEq v 0 = 1 ↔ v = 0 := by
  unfold subtle.ConstantTimeByteEq
  rw [Nat.xor_zero, Nat.shiftRight_eq_div_pow]
  constructor
  · intro h
    by_contra hne
    have h1 : (v % 2 ^ 32 + 2 ^ 32 - 1) % 2 ^ 32 = v - 1 := by omega
    rw [h1] at h
    omega
  · rintro rfl
    decide

theorem subtle.compareLoop_lt (x y : Bytes) (i v : Nat) (hv : v < 256) :
    (subtle.compareLoop x y i v).1 < 256 := by
  induction x generalizing y i v with
  | nil => simpa [subtle.compareLoop] using hv
  | cons a as ih =>
    cases y with
    | nil => simpa [subtle.compareLoop] using hv
    | cons b bs =>
      simp only [subtle.compareLoop]
      exact ih bs (i + 1) _ (Nat.mod_lt _ (by decide))

theorem subtle.compareLoop_eq_zero (x y : Bytes) (i v : Nat) (hv : v < 256)
    (hlen : x.length = y.length) :
    (subtle.compareLoop x y i v).1 = 0 ↔ v = 0 ∧ x = y := by
  induction x generalizing y i v with
  | nil =>
    cases y with
    | nil => simp [subtle.compareLoop]
    | cons b bs => simp at hlen
  | cons a as ih =>
    cases y with
    | nil => simp at hlen
    | cons b bs =>
      simp only [subtle.compareLoop]
      have hl : as.length = bs.length := by simpa using hlen
      have hx : a.val ^^^ b.val < 256 := @Nat.xor_lt_two_pow _ _ 8 a.isLt b.isLt
      have ho : v ||| (a.val ^^^ b.val) < 256 := @Nat.or_lt_two_pow _ _ 8 hv hx
      rw [ih bs (i + 1) _ (Nat.mod_lt _ (by decide)) hl, Nat.mod_eq_of_lt ho, nat_or_eq_zero,
        Nat.xor_eq_zero]
      constructor
      · rintro ⟨⟨h1, h2⟩, h3⟩
        exact ⟨h1, by rw [Fin.ext h2, h3]⟩
      · rintro ⟨h1, h2⟩
        injection h2 with h2 h3
        exact ⟨⟨h1, by rw [h2]⟩, h3⟩

theorem subtle.ConstantTimeCompare_eq_one (x y : Bytes) :
    subtle.ConstantTimeCompare x y = 1 ↔ x = y := by
  unfold subtle.ConstantTimeCompare subtle.ConstantTimeCompareLeak
  by_cases hlen : x.length = y.length
  · simp only [hlen, ne_eq, not_true_eq_false, if_false]
    rw [subtle.ConstantTimeByteEq_zero _ (subtle.compareLoop_lt x y 0 0 (by decide)),
      subtle.compareLoop_eq_zero x y 0 0 (by decide) hlen]
    simp
  · simp only [ne_eq, hlen, not_false_eq_true, if_true]
    constructor
    · intro h
      simp at h
    · rintro rfl
      exact absurd rfl hlen

theorem hmac.Equal_iff (mac1 mac2 : Bytes) : hmac.Equal mac1 mac2 = true ↔ mac1 = mac2 := by
  have h := subtle.ConstantTimeCompare_eq_one mac1 mac2
  unfold subtle.ConstantTimeCompare at h
  simp [hmac.Equal, hmac.EqualLeak, h]

theorem hasValidSignature_iff (env : Env) (r : http.Request) (body : Bytes) :
    hasValidSignature env r body = true
      ↔ r.Header.Get "X-Signature" = expectedSignature env body := by
  have hlen := expectedSignature_length env body
  have heq := hmac.Equal_iff (r.Header.Get "X-Signature") (expectedSignature env body)
  unfold hmac.Equal at heq
  unfold hasValidSignature hasValidSignatureLeak
  by_cases hs : r.Header.Get "X-Signature" = []
  · simp only [hs, if_true]
    constructor
    · intro h
      simp at h
    · intro h
      rw [← h] at hlen
      simp at hlen
  · simp only [hs, if_false]
    exact heq

theorem getResponseHeaders_fresh :
    getResponseHeaders http.ResponseWriter.fresh
      = { header := corsHeader, status := none, sent := ⟨[]⟩, body := "" } := by
  decide

theorem http.Error_cors (msg : String) (code : Nat) (h : http.bodyAllowedForStatus code = true) :
    http.Error (getResponseHeaders http.ResponseWriter.fresh) msg code
      = { header := errorHeader, status := some code, sent := errorHeader, body := msg ++ "\n" } := by
  rw [getResponseHeaders_fresh]
  have h1 : ((corsHeader.Del "Content-Length").Set "Content-Type" "text/plain; charset=utf-8").Set
      "X-Content-Type-Options" "nosniff" = errorHeader := by decide
  simp [http.Error, http.ResponseWriter.WriteHeader, http.ResponseWriter.Write, h, h1]

theorem corsHeader_get :
    corsHeader.Get "Access-Control-Allow-Origin" = stringBytes "*"
      ∧ corsHeader.Get "Access-Control-Allow-Methods" = stringBytes "POST, OPTIONS"
      ∧ corsHeader.Get "Access-Control-Allow-Headers" = stringBytes "Content-Type, X-Signature" := by
  decide

theorem errorHeader_get :
    errorHeader.Get "Access-Control-Allow-Origin" = stringBytes "*"
      ∧ errorHeader.Get "Access-Control-Allow-Methods" = stringBytes "POST, OPTIONS"
      ∧ errorHeader.Get "Access-Control-Allow-Headers" = stringBytes "Content-Type, X-Signature" := by
  decide

theorem serve_options (env : Env) (r : http.Request) (hm : r.Method = "OPTIONS") :
    serve env r
      = ({ header := corsHeader, status := some 204, sent := corsHeader, body := "" }, []) := by
  unfold serve HandleRequest
  rw [getResponseHeaders_fresh]
  simp [http.MethodOptions, hm, http.ResponseWriter.WriteHeader, http.StatusNoContent]

theorem serve_unreadable (env : Env) (r : http.Request) (e : GoError)
    (hm : r.Method ≠ "OPTIONS") (hb : r.Body = Except.error e) :
    serve env r
      = (http.Error (getResponseHeaders http.ResponseWriter.fresh) "Failed to read request body"
          500, [Call.ReadAll]) := by
  unfold serve HandleRequest
  simp [http.MethodOptions, hm, hb, http.StatusInternalServerError]

theorem serve_forbidden (env : Env) (r : http.Request) (body : Bytes)
    (hm : r.Method ≠ "OPTIONS") (hb : r.Body = Except.ok body)
    (hs : r.Header.Get "X-Signature" ≠ expectedSignature env body) :
    serve env r
      = (http.Error (getResponseHeaders http.ResponseWriter.fresh) "Invalid signature" 403,
          [Call.ReadAll]) := by
  have hv : ¬ hasValidSignature env r body = true := by
    rw [hasValidSignature_iff]
    exact hs
  unfold serve HandleRequest
  simp [http.MethodOptions, hm, hb, hv, http.StatusForbidden]

theorem serve_invalid_json (env : Env) (r : http.Request) (body : Bytes) (e : GoError)
    (hm : r.Method ≠ "OPTIONS") (hb : r.Body = Except.ok body)
    (hs : r.Header.Get "X-Signature" = expectedSignature env body)
    (hj : env.Unmarshal body = Except.error e) :
    serve env r
      = (http.Error (getResponseHeaders http.ResponseWriter.fresh) "Invalid JSON" 400,
          [Call.ReadAll]) := by
  have hv : hasValidSignature env r body = true := (hasValidSignature_iff env r body).mpr hs
  unfold serve HandleRequest
  simp [http.MethodOptions, hm, hb, hv, hj, http.StatusBadRequest]

theorem serve_missing_contents (env : Env) (r : http.Request) (body : Bytes) (req : RequestBody)
    (hm : r.Method ≠ "OPTIONS") (hb : r.Body = Except.ok body)
    (hs : r.Header.Get "X-Signature" = expectedSignature env body)
    (hj : env.Unmarshal body = Except.ok req) (hc : req.Contents = "") :
    serve env r
      = (http.Error (getResponseHeaders http.ResponseWriter.fresh) "Missing 'contents' parameter"
          400, [Call.ReadAll]) := by
  have hv : hasValidSignature env r body = true := (hasValidSignature_iff env r body).mpr hs
  unfold serve HandleRequest
  simp [http.MethodOptions, hm, hb, hv, hj, hc, http.StatusBadRequest]

theorem serve_failure (env : Env) (r : http.Request) (body : Bytes) (req : RequestBody)
    (text : String) (e : GoError)
    (hm : r.Method ≠ "OPTIONS") (hb : r.Body = Except.ok body)
    (hs : r.Header.Get "X-Signature" = expectedSignature env body)
    (hj : env.Unmarshal body = Except.ok req) (hc : req.Contents ≠ "")
    (hg : (generateLookerQuery env req.Contents req.Parameters).1 = (text, some e)) :
    serve env r
      = (http.Error (getResponseHeaders http.ResponseWriter.fresh) e.Error 500,
          Call.ReadAll :: (generateLookerQuery env req.Contents req.Parameters).2) := by
  have hv : hasValidSignature env r body = true := (hasValidSignature_iff env r body).mpr hs
  unfold serve HandleRequest
  simp [http.MethodOptions, hm, hb, hv, hj, hc, hg, http.StatusInternalServerError]

theorem serve_success (env : Env) (r : http.Request) (body : Bytes) (req : RequestBody)
    (text : String)
    (hm : r.Method ≠ "OPTIONS") (hb : r.Body = Except.ok body)
    (hs : r.Header.Get "X-Signature" = expectedSignature env body)
    (hj : env.Unmarshal body = Except.ok req) (hc : req.Contents ≠ "")
    (hg : (generateLookerQuery env req.Contents req.Parameters).1 = (text, none)) :
    serve env r
      = ({ header := corsHeader, status := some 200, sent := corsHeader,
           body := json.marshalMap [("response", text)] ++ "\n" },
          Call.ReadAll :: (generateLookerQuery env req.Contents req.Parameters).2) := by
  have hv : hasValidSignature env r body = true := (hasValidSignature_iff env r body).mpr hs
  unfold serve HandleRequest
  rw [getResponseHeaders_fresh]
  simp [http.MethodOptions, hm, hb, hv, hj, hc, hg, http.StatusOK, json.Encode,
    http.ResponseWriter.WriteHeader, http.ResponseWriter.Write, http.bodyAllowedForStatus]

theorem generateLookerQuery_calls (env : Env) (contents : String)
    (parameters : Option (List (String × json.Value))) :
    (generateLookerQuery env contents parameters).2 = [Call.NewClient (clientConfig env)]
      ∨ (generateLookerQuery env contents parameters).2
          = [Call.NewClient (clientConfig env),
             Call.GenerateContent env.modelName contents (generateContentConfig env)] := by
  unfold generateLookerQuery
  cases env.NewClient (clientConfig env) with
  | error err => exact Or.inl rfl
  | ok client =>
    right
    simp only
    cases env.GenerateContent client env.modelName contents (generateContentConfig env) <;> rfl

/-! ## The signature check -/

/-- C1: `hasValidSignature` returns true exactly when the `X-Signature` value is
the hexadecimal encoding of the HMAC-SHA256 of the body under the secret; that
encoding has 64 characters, all of them lowercase hexadecimal digits; an empty
or absent header is rejected. -/
theorem hasValidSignature_spec (env : Env) (r : http.Request) (body : Bytes) :
    (hasValidSignature env r body = true
        ↔ r.Header.Get "X-Signature"
            = hex.EncodeToString (((hmac.New env.vertexCFAuthToken).Write body).Sum []))
      ∧ (hex.EncodeToString (((hmac.New env.vertexCFAuthToken).Write body).Sum [])).length = 64
      ∧ (∀ c ∈ hex.EncodeToString (((hmac.New env.vertexCFAuthToken).Write body).Sum []),
          c ∈ stringBytes "0123456789abcdef")
      ∧ (r.Header.Get "X-Signature" = [] → hasValidSignature env r body = false)
      ∧ (r.Header.entries.lookup "X-Signature" = none → hasValidSignature env r body = false) := by
  have hiff := hasValidSignature_iff env r body
  have hlen := expectedSignature_length env body
  have hempty : r.Header.Get "X-Signature" = [] → hasValidSignature env r body = false := by
    intro h
    cases hv : hasValidSignature env r body
    · rfl
    · rw [hiff.mp hv] at h
      rw [h] at hlen
      simp at hlen
  refine ⟨hiff, hlen, hex.EncodeToString_mem _, hempty, ?_⟩
  intro h
  apply hempty
  simp [http.Header.Get, h]

set_option maxRecDepth 100000 in
/-- The signature check on the example: the correct signature is accepted, and an
empty one and a header-less request are rejected. -/
theorem hasValidSignature_spec_witness :
    hasValidSignature revenueEnv (signed revenueEnv revenueBody) revenueBody = true
      ∧ hasValidSignature revenueEnv (post revenueBody []) revenueBody = false
      ∧ hasValidSignature revenueEnv ⟨"POST", ⟨[]⟩, Except.ok revenueBody⟩ revenueBody = false
      ∧ expectedSignature revenueEnv revenueBody
          = stringBytes "245bfebe87c078d4927d551f803873f2a782bb4e10726b260df2582a62753474" :=
  ⟨(hasValidSignature_spec revenueEnv (signed revenueEnv revenueBody) revenueBody).1.mpr rfl,
   (hasValidSignature_spec revenueEnv (post revenueBody []) revenueBody).2.2.2.1 rfl,
   (hasValidSignature_spec revenueEnv ⟨"POST", ⟨[]⟩, Except.ok revenueBody⟩ revenueBody).2.2.2.2 rfl,
   by decide⟩

theorem subtle.compareLoop_leak (x x2 y : Bytes) (i v v2 : Nat) (h : x.length = x2.length) :
    (subtle.compareLoop x y i v).2 = (subtle.compareLoop x2 y i v2).2 := by
  induction x generalizing x2 y i v v2 with
  | nil =>
    cases x2 with
    | nil => simp [subtle.compareLoop]
    | cons a2 as2 => simp at h
  | cons a as ih =>
    cases x2 with
    | nil => simp at h
    | cons a2 as2 =>
      have hl : as.length = as2.length := by simpa using h
      cases y with
      | nil => simp [subtle.compareLoop]
      | cons b bs =>
        simp only [subtle.compareLoop]
        rw [ih as2 bs (i + 1) _ ((v2 ||| (a2.val ^^^ b.val)) % 256) hl]

/-- C10: for a fixed body and secret, two signature values of the same length
make `hasValidSignature` produce the same sequence of branch outcomes and
memory indices, wherever either of them first differs from the digest. -/
theorem hasValidSignature_constant_time (env : Env) (body : Bytes) (r1 r2 : http.Request)
    (hlen : (r1.Header.Get "X-Signature").length = (r2.Header.Get "X-Signature").length) :
    (hasValidSignatureLeak env r1 body).2 = (hasValidSignatureLeak env r2 body).2 := by
  unfold hasValidSignatureLeak
  by_cases h1 : r1.Header.Get "X-Signature" = []
  · have h2 : r2.Header.Get "X-Signature" = [] := by
      rw [h1] at hlen
      exact List.length_eq_zero.mp hlen.symm
    simp [h1, h2]
  · have h2 : r2.Header.Get "X-Signature" ≠ [] := by
      intro h2
      rw [h2] at hlen
      exact h1 (List.length_eq_zero.mp hlen)
    simp only [h1, h2, if_false, hmac.EqualLeak, subtle.ConstantTimeCompareLeak, hlen]
    split
    · rfl
    · rw [subtle.compareLoop_leak _ _ _ 0 0 0 hlen]

/-- Two wrong signatures for the example body, one wrong in its first character
and one in its last, leave the same trace. -/
theorem hasValidSignature_constant_time_witness :
    (hasValidSignatureLeak revenueEnv
        (post revenueBody
          (stringBytes "045bfebe87c078d4927d551f803873f2a782bb4e10726b260df2582a62753474"))
        revenueBody).2
      = (hasValidSignatureLeak revenueEnv
          (post revenueBody
            (stringBytes "245bfebe87c078d4927d551f803873f2a782bb4e10726b260df2582a62753475"))
          revenueBody).2 :=
  hasValidSignature_constant_time revenueEnv revenueBody _ _ (by decide)

/-! ## The handler -/

/-- C2: a request that is not OPTIONS, whose body can be read and whose
`X-Signature` is absent, empty or not the expected signature of the body, gets
status 403 with the one fixed message "Invalid signature" whatever the decoder
would say about the body, and no call goes to the generation backend. -/
theorem invalid_signature_forbidden (env : Env) (r : http.Request) (body : Bytes)
    (hm : r.Method ≠ "OPTIONS") (hb : r.Body = Except.ok body)
    (hs : r.Header.entries.lookup "X-Signature" = none ∨ r.Header.Get "X-Signature" = []
      ∨ r.Header.Get "X-Signature" ≠ expectedSignature env body) :
    (serve env r).1.status = some 403
      ∧ (serve env r).1.body = "Invalid signature\n"
      ∧ (serve env r).1
          = http.Error (getResponseHeaders http.ResponseWriter.fresh) "Invalid signature" 403
      ∧ ∀ c ∈ (serve env r).2, c.isBackend = false := by
  have hne : r.Header.Get "X-Signature" ≠ expectedSignature env body := by
    have hlen := expectedSignature_length env body
    rcases hs with h | h | h
    · intro heq
      have : r.Header.Get "X-Signature" = [] := by simp [http.Header.Get, h]
      rw [← heq, this] at hlen
      simp at hlen
    · intro heq
      rw [← heq, h] at hlen
      simp at hlen
    · exact h
  rw [serve_forbidden env r body hm hb hne, http.Error_cors _ _ (by decide)]
  simp [Call.isBackend]

set_option maxRecDepth 100000 in
/-- A wrongly signed request for the example body is refused. -/
theorem invalid_signature_forbidden_witness :
    (post revenueBody (stringBytes "deadbeef")).Header.Get "X-Signature"
        ≠ expectedSignature revenueEnv revenueBody
      ∧ (serve revenueEnv (post revenueBody (stringBytes "deadbeef"))).1.status = some 403
      ∧ (serve revenueEnv (post revenueBody (stringBytes "deadbeef"))).1.body
          = "Invalid signature\n" :=
  have h := invalid_signature_forbidden revenueEnv (post revenueBody (stringBytes "deadbeef"))
    revenueBody (by decide) rfl (Or.inr (Or.inr (by decide)))
  ⟨by decide, h.1, h.2.1⟩

/-- C3: a request that is not OPTIONS, carries the expected signature of its body
and whose body the JSON decoder rejects gets status 400 with the fixed message
"Invalid JSON", and no call goes to the generation backend. -/
theorem invalid_json_bad_request (env : Env) (r : http.Request) (body : Bytes) (e : GoError)
    (hm : r.Method ≠ "OPTIONS") (hb : r.Body = Except.ok body)
    (hs : r.Header.Get "X-Signature" = expectedSignature env body)
    (hj : env.Unmarshal body = Except.error e) :
    (serve env r).1.status = some 400
      ∧ (serve env r).1.status ≠ some 403
      ∧ (serve env r).1.status ≠ some 500
      ∧ (serve env r).1.body = "Invalid JSON\n"
      ∧ ∀ c ∈ (serve env r).2, c.isBackend = false := by
  rw [serve_invalid_json env r body e hm hb hs hj, http.Error_cors _ _ (by decide)]
  simp [Call.isBackend]

set_option maxRecDepth 100000 in
/-- The correctly signed broken body is answered with "Invalid JSON". -/
theorem invalid_json_bad_request_witness :
    revenueEnv.Unmarshal brokenBody = Except.error ⟨"invalid character"⟩
      ∧ (serve revenueEnv (signed revenueEnv brokenBody)).1.status = some 400
      ∧ (serve revenueEnv (signed revenueEnv brokenBody)).1.body = "Invalid JSON\n" :=
  have h := invalid_json_bad_request revenueEnv (signed revenueEnv brokenBody) brokenBody
    ⟨"invalid character"⟩ (by decide) rfl rfl rfl
  ⟨rfl, h.1, h.2.2.2.1⟩

/-- C4, as stated, fails on three signed POST bodies that are valid JSON with
`contents` empty or missing. The decoder rejects the first (its `parameters` is
a number) and the second (an array), and the answer is "Invalid JSON"; in the
third the key `CONTENTS` fills the field, so the answer is 200 and the backend
is called. -/
theorem valid_json_empty_contents_other_answers :
    (contentsEmptyOrMissing typedBody = true
      ∧ (signed decodingEnv typedBody).Method ≠ "OPTIONS"
      ∧ (signed decodingEnv typedBody).Header.Get "X-Signature"
          = expectedSignature decodingEnv typedBody
      ∧ (serve decodingEnv (signed decodingEnv typedBody)).1.body = "Invalid JSON\n"
      ∧ (serve decodingEnv (signed decodingEnv typedBody)).1.body
          ≠ "Missing 'contents' parameter\n")
      ∧ (contentsEmptyOrMissing arrayBody = true
        ∧ (signed decodingEnv arrayBody).Method ≠ "OPTIONS"
        ∧ (signed decodingEnv arrayBody).Header.Get "X-Signature"
            = expectedSignature decodingEnv arrayBody
        ∧ (serve decodingEnv (signed decodingEnv arrayBody)).1.body = "Invalid JSON\n"
        ∧ (serve decodingEnv (signed decodingEnv arrayBody)).1.body
            ≠ "Missing 'contents' parameter\n")
      ∧ (contentsEmptyOrMissing capitalsBody = true
        ∧ (signed decodingEnv capitalsBody).Method ≠ "OPTIONS"
        ∧ (signed decodingEnv capitalsBody).Header.Get "X-Signature"
            = expectedSignature decodingEnv capitalsBody
        ∧ (serve decodingEnv (signed decodingEnv capitalsBody)).1.status = some 200
        ∧ (serve decodingEnv (signed decodingEnv capitalsBody)).2.any Call.isBackend = true) := by
  have h1 := serve_invalid_json decodingEnv (signed decodingEnv typedBody) typedBody
    ⟨"json: cannot unmarshal value into Go struct field RequestBody.parameters"⟩
    (by decide) rfl rfl rfl
  have h2 := serve_invalid_json decodingEnv (signed decodingEnv arrayBody) arrayBody
    ⟨"json: cannot unmarshal value into Go value of type RequestBody"⟩ (by decide) rfl rfl rfl
  have h3 := serve_success decodingEnv (signed decodingEnv capitalsBody) capitalsBody
    ⟨"What is revenue?", none⟩ "Revenue was $5M" (by decide) rfl rfl rfl (by decide) rfl
  rw [h1, h2, h3, http.Error_cors _ _ (by decide)]
  exact ⟨⟨by decide, by decide, rfl, rfl, by decide⟩, ⟨by decide, by decide, rfl, rfl, by decide⟩,
    ⟨by decide, by decide, rfl, rfl, rfl⟩⟩

/-- C4, amended: a request that is not OPTIONS, carries the expected signature
and whose body `json.Unmarshal` decodes without error into a `RequestBody` with
empty `Contents` gets status 400 with the fixed message "Missing 'contents'
parameter", which is not the message for malformed JSON; the only call made is
the read of the body, so `generateLookerQuery` is not reached. -/
theorem missing_contents_bad_request (env : Env) (r : http.Request) (body : Bytes)
    (req : RequestBody)
    (hm : r.Method ≠ "OPTIONS") (hb : r.Body = Except.ok body)
    (hs : r.Header.Get "X-Signature" = expectedSignature env body)
    (hj : env.Unmarshal body = Except.ok req) (hc : req.Contents = "") :
    (serve env r).1.status = some 400
      ∧ (serve env r).1.body = "Missing 'contents' parameter\n"
      ∧ (serve env r).1.body ≠ "Invalid JSON\n"
      ∧ (serve env r).2 = [Call.ReadAll] := by
  rw [serve_missing_contents env r body req hm hb hs hj hc, http.Error_cors _ _ (by decide)]
  refine ⟨rfl, rfl, by decide, rfl⟩

set_option maxRecDepth 100000 in
/-- The correctly signed body with empty `contents` is answered with the
validation message. -/
theorem missing_contents_bad_request_witness :
    decodingEnv.Unmarshal emptyContentsBody = Except.ok ⟨"", none⟩
      ∧ (serve decodingEnv (signed decodingEnv emptyContentsBody)).1.status = some 400
      ∧ (serve decodingEnv (signed decodingEnv emptyContentsBody)).1.body
          = "Missing 'contents' parameter\n" :=
  have h := missing_contents_bad_request decodingEnv (signed decodingEnv emptyContentsBody)
    emptyContentsBody ⟨"", none⟩ (by decide) rfl rfl rfl rfl
  ⟨rfl, h.1, h.2.1⟩

/-- C7: an OPTIONS request, whatever its body and headers, gets status 204, an
empty body and the three CORS headers, and the handler makes no call at all:
the body is not read and the backend is not invoked; the response does not
depend on the request or on the secret. -/
theorem options_no_content (env : Env) (r : http.Request) (hm : r.Method = "OPTIONS") :
    (serve env r).1.status = some 204
      ∧ (serve env r).1.body = ""
      ∧ (serve env r).1.sent.Get "Access-Control-Allow-Origin" = stringBytes "*"
      ∧ (serve env r).1.sent.Get "Access-Control-Allow-Methods" = stringBytes "POST, OPTIONS"
      ∧ (serve env r).1.sent.Get "Access-Control-Allow-Headers"
          = stringBytes "Content-Type, X-Signature"
      ∧ (serve env r).2 = []
      ∧ serve env r
          = ({ header := corsHeader, status := some 204, sent := corsHeader, body := "" }, []) := by
  rw [serve_options env r hm]
  refine ⟨rfl, rfl, by decide, by decide, by decide, rfl, rfl⟩

/-- An OPTIONS request with an unreadable body and no signature is answered 204. -/
theorem options_no_content_witness :
    (serve revenueEnv ⟨"OPTIONS", ⟨[]⟩, Except.error ⟨"unexpected EOF"⟩⟩).1.status = some 204
      ∧ (serve revenueEnv ⟨"OPTIONS", ⟨[]⟩, Except.error ⟨"unexpected EOF"⟩⟩).2 = [] :=
  have h := options_no_content revenueEnv ⟨"OPTIONS", ⟨[]⟩, Except.error ⟨"unexpected EOF"⟩⟩ rfl
  ⟨h.1, h.2.2.2.2.2.1⟩

/-- C8: on every path through `HandleRequest` a status is written and the
headers sent with it carry the three CORS headers; they were put in the header
map by `getResponseHeaders` while no status had been written yet. -/
theorem cors_on_every_response (env : Env) (r : http.Request) :
    (getResponseHeaders http.ResponseWriter.fresh).status = none
      ∧ (serve env r).1.status.isSome = true
      ∧ (serve env r).1.sent.Get "Access-Control-Allow-Origin" = stringBytes "*"
      ∧ (serve env r).1.sent.Get "Access-Control-Allow-Methods" = stringBytes "POST, OPTIONS"
      ∧ (serve env r).1.sent.Get "Access-Control-Allow-Headers"
          = stringBytes "Content-Type, X-Signature" := by
  have herr : ∀ (msg : String) (code : Nat) (calls : List Call),
      http.bodyAllowedForStatus code = true →
      serve env r = (http.Error (getResponseHeaders http.ResponseWriter.fresh) msg code, calls) →
      (serve env r).1.status.isSome = true
        ∧ (serve env r).1.sent.Get "Access-Control-Allow-Origin" = stringBytes "*"
        ∧ (serve env r).1.sent.Get "Access-Control-Allow-Methods" = stringBytes "POST, OPTIONS"
        ∧ (serve env r).1.sent.Get "Access-Control-Allow-Headers"
            = stringBytes "Content-Type, X-Signature" := by
    intro msg code calls hcode h
    rw [h, http.Error_cors msg code hcode]
    exact ⟨rfl, errorHeader_get⟩
  refine ⟨by decide, ?_⟩
  by_cases hm : r.Method = "OPTIONS"
  · rw [serve_options env r hm]
    exact ⟨rfl, corsHeader_get⟩
  · cases hb : r.Body with
    | error e => exact herr _ _ _ (by decide) (serve_unreadable env r e hm hb)
    | ok body =>
      by_cases hs : r.Header.Get "X-Signature" = expectedSignature env body
      · cases hj : env.Unmarshal body with
        | error e => exact herr _ _ _ (by decide) (serve_invalid_json env r body e hm hb hs hj)
        | ok req =>
          by_cases hc : req.Contents = ""
          · exact herr _ _ _ (by decide) (serve_missing_contents env r body req hm hb hs hj hc)
          · cases hg : (generateLookerQuery env req.Contents req.Parameters).1 with
            | mk text err =>
              cases err with
              | some e =>
                exact herr _ _ _ (by decide) (serve_failure env r body req text e hm hb hs hj hc hg)
              | none =>
                rw [serve_success env r body req text hm hb hs hj hc hg]
                exact ⟨rfl, corsHeader_get⟩
      · exact herr _ _ _ (by decide) (serve_forbidden env r body hm hb hs)

/-- C6: when, for a request that passed the signature check, decoding and the
`contents` check, opening the session or the generation call fails with `e`,
`generateLookerQuery` returns the empty text with `e` itself, having made each
backend call at most once, and the response has status 500 and `e`'s text as
its message. -/
theorem backend_error_internal (env : Env) (r : http.Request) (body : Bytes) (req : RequestBody)
    (e : GoError)
    (hm : r.Method ≠ "OPTIONS") (hb : r.Body = Except.ok body)
    (hs : r.Header.Get "X-Signature" = expectedSignature env body)
    (hj : env.Unmarshal body = Except.ok req) (hc : req.Contents ≠ "")
    (he : env.NewClient (clientConfig env) = Except.error e
      ∨ ∃ client, env.NewClient (clientConfig env) = Except.ok client
          ∧ env.GenerateContent client env.modelName req.Contents (generateContentConfig env)
              = Except.error e) :
    (generateLookerQuery env req.Contents req.Parameters).1 = ("", some e)
      ∧ ((generateLookerQuery env req.Contents req.Parameters).2
            = [Call.NewClient (clientConfig env)]
          ∨ (generateLookerQuery env req.Contents req.Parameters).2
            = [Call.NewClient (clientConfig env),
               Call.GenerateContent env.modelName req.Contents (generateContentConfig env)])
      ∧ (serve env r).1.status = some 500
      ∧ (serve env r).1.body = e.Error ++ "\n" := by
  have hg : (generateLookerQuery env req.Contents req.Parameters).1 = ("", some e) := by
    unfold generateLookerQuery
    rcases he with h | ⟨client, h1, h2⟩
    · simp [h]
    · simp [h1, h2]
  refine ⟨hg, generateLookerQuery_calls env req.Contents req.Parameters, ?_⟩
  rw [serve_failure env r body req "" e hm hb hs hj hc hg, http.Error_cors _ _ (by decide)]
  exact ⟨rfl, rfl⟩

/-- A failing generation call is reported as status 500 with the error text. -/
theorem backend_error_internal_witness :
    (generateLookerQuery failingEnv "What is revenue?" none).1 = ("", some ⟨"quota exceeded"⟩)
      ∧ (serve failingEnv (signed failingEnv revenueBody)).1.status = some 500
      ∧ (serve failingEnv (signed failingEnv revenueBody)).1.body = "quota exceeded\n" :=
  have h := backend_error_internal failingEnv (signed failingEnv revenueBody) revenueBody
    ⟨"What is revenue?", none⟩ ⟨"quota exceeded"⟩ (by decide) rfl rfl rfl (by decide)
    (Or.inr ⟨clientConfig failingEnv, rfl, rfl⟩)
  ⟨h.1, h.2.2.1, h.2.2.2⟩

/-- C9, as stated, fails: with a backend whose response has the empty text and
no error, `generateLookerQuery` returns the empty text as a success and the
handler answers 200 with the object whose "response" is empty. -/
theorem empty_text_answered_ok :
    (generateLookerQuery silentEnv "What is revenue?" none).1 = ("", none)
      ∧ (serve silentEnv (signed silentEnv revenueBody)).1.status = some 200
      ∧ (serve silentEnv (signed silentEnv revenueBody)).1.body
          = "\x7b\"response\":\"\"\x7d\n" := by
  have h := serve_success silentEnv (signed silentEnv revenueBody) revenueBody
    ⟨"What is revenue?", none⟩ "" (by decide) rfl rfl rfl (by decide) rfl
  rw [h]
  exact ⟨rfl, rfl, by decide⟩

/-- C9, amended: when the session opens and the generation call succeeds,
`generateLookerQuery` returns exactly what the response's `Text()` returns; so
if that is the empty text with no error, the result is the empty text as a
success and the handler answers 200 with the object whose "response" is empty,
followed by a newline. -/
theorem empty_text_passed_through (env : Env) (r : http.Request) (body : Bytes)
    (req : RequestBody) (client : env.Client) (response : env.GenerateContentResponse)
    (hm : r.Method ≠ "OPTIONS") (hb : r.Body = Except.ok body)
    (hs : r.Header.Get "X-Signature" = expectedSignature env body)
    (hj : env.Unmarshal body = Except.ok req) (hc : req.Contents ≠ "")
    (hn : env.NewClient (clientConfig env) = Except.ok client)
    (hg : env.GenerateContent client env.modelName req.Contents (generateContentConfig env)
      = Except.ok response)
    (ht : env.Text response = ("", none)) :
    (generateLookerQuery env req.Contents req.Parameters).1 = env.Text response
      ∧ (generateLookerQuery env req.Contents req.Parameters).1 = ("", none)
      ∧ (serve env r).1.status = some 200
      ∧ (serve env r).1.body = "\x7b\"response\":\"\"\x7d\n" := by
  have h1 : (generateLookerQuery env req.Contents req.Parameters).1 = env.Text response := by
    unfold generateLookerQuery
    simp [hn, hg]
  have h2 : (generateLookerQuery env req.Contents req.Parameters).1 = ("", none) := by
    rw [h1, ht]
  rw [serve_success env r body req "" hm hb hs hj hc h2]
  have h3 : json.marshalMap [("response", "")] ++ "\n" = "\x7b\"response\":\"\"\x7d\n" := by
    decide
  exact ⟨h1, h2, rfl, h3⟩

/-- The silent backend on the example request. -/
theorem empty_text_passed_through_witness :
    silentEnv.Text ("", none) = ("", none)
      ∧ (generateLookerQuery silentEnv "What is revenue?" none).1 = ("", none)
      ∧ (serve silentEnv (signed silentEnv revenueBody)).1.status = some 200 :=
  have h := empty_text_passed_through silentEnv (signed silentEnv revenueBody) revenueBody
    ⟨"What is revenue?", none⟩ (clientConfig silentEnv) ("", none) (by decide) rfl rfl rfl
    (by decide) rfl rfl rfl
  ⟨rfl, h.2.1, h.2.2.1⟩
